import Mathlib

/-!
# Verification of the lowdown library core (library.c)

A shallow embedding of the rendering-pipeline orchestration and
document-wrapping layer of lowdown: the error-string table
(`lowdown_errstr`), the pipeline orchestrator (`lowdown_buf`,
`lowdown_file`), the metadata date normalizers (`date2str`,
`rcsdate2str`), the output-specific escapers (the inline HTML-title
escape loop and `serialise_roff`), and the standalone document wrapper
(`lowdown_standalone_open`, `lowdown_standalone_close`).

C strings are modelled as `String`/`List Char` (one `Char` per byte of
the ASCII inputs involved), `sscanf` with the formats used in the file
is modelled by explicit parsers, failure (a NULL return in C) by
`Option`, and the external collaborators (document parser, renderer,
smartypants passes, input stream) by universally quantified functions
and values.
-/

namespace Lowdown

/-! ## ctype model: `isspace` in the C locale -/

/-- C `isspace` (default locale): space (32), tab (9), newline (10),
vertical tab (11), form feed (12), carriage return (13). -/
def c_isspace (c : Char) : Bool :=
  c.toNat = 32 || c.toNat = 9 || c.toNat = 10 ||
    c.toNat = 11 || c.toNat = 12 || c.toNat = 13

/-- Skip a leading whitespace run, as the `while (isspace(*v)) v++;`
loops in library.c do. -/
def skipWs : List Char → List Char
  | [] => []
  | c :: cs => if c_isspace c then skipWs cs else c :: cs

/-! ## sscanf model

`date2str` uses `sscanf(v, "%u/%u/%u", ...)` and
`sscanf(v, "%u-%u-%u", ...)`; `rcsdate2str` uses
`sscanf(v, "%u/%u/%u %u:%u:%u", ...)`.  A `%u` conversion skips
leading whitespace, accepts an optional sign, then reads a maximal
nonempty digit run; the value is converted as by `strtoul` (clamped to
`ULONG_MAX = 2^64 - 1` on overflow, negated modulo for a minus sign)
and stored into an `unsigned int`, i.e. reduced mod `2^32`.  A literal
character in the format must match exactly; a space in the format
skips any whitespace. -/

/-- A decimal digit byte, `'0'` through `'9'`. -/
def c_isdigit (c : Char) : Bool :=
  48 ≤ c.toNat && c.toNat ≤ 57

/-- Value of a decimal digit string (most significant first). -/
def digitsToNat (ds : List Char) : Nat :=
  ds.foldl (fun a c => a * 10 + (c.toNat - 48)) 0

/-- Split off the maximal leading run of decimal digits. -/
def spanDigits : List Char → List Char × List Char
  | [] => ([], [])
  | c :: cs =>
    if c_isdigit c then
      let p := spanDigits cs
      (c :: p.1, p.2)
    else ([], c :: cs)

/-- The stored value of a `%u` conversion whose digit run is `ds`:
`strtoul` clamping at `2^64 - 1`, then truncation to `unsigned int`. -/
def uVal (ds : List Char) : Nat :=
  min (digitsToNat ds) (2 ^ 64 - 1) % 2 ^ 32

/-- The sign-and-digits part of a `%u` conversion, after whitespace
has been skipped. -/
def parse_u_core : List Char → Option (Nat × List Char)
  | [] => none
  | c :: r =>
    if c = '-' then
      match spanDigits r with
      | ([], _) => none
      | (ds, rest) => some ((2 ^ 32 - uVal ds) % 2 ^ 32, rest)
    else if c = '+' then
      match spanDigits r with
      | ([], _) => none
      | (ds, rest) => some (uVal ds, rest)
    else
      match spanDigits (c :: r) with
      | ([], _) => none
      | (ds, rest) => some (uVal ds, rest)

/-- One `%u` conversion: skip whitespace, optional sign, a nonempty
digit run; returns the stored value and the unconsumed remainder. -/
def parse_u (s : List Char) : Option (Nat × List Char) :=
  parse_u_core (skipWs s)

/-- A literal character in an sscanf format: must match exactly. -/
def parse_lit (c : Char) : List Char → Option (List Char)
  | [] => none
  | x :: xs => if x = c then some xs else none

/-- The `"%u<sep>%u<sep>%u"` scan used by `date2str` (with `sep` either
`/` or `-`); succeeds iff all three conversions match (`rc == 3`). -/
def scan3 (sep : Char) (s : List Char) : Option (Nat × Nat × Nat) :=
  match parse_u s with
  | none => none
  | some (y, s) =>
    match parse_lit sep s with
    | none => none
    | some s =>
      match parse_u s with
      | none => none
      | some (m, s) =>
        match parse_lit sep s with
        | none => none
        | some s =>
          match parse_u s with
          | none => none
          | some (d, _) => some (y, m, d)

/-- The `"%u/%u/%u %u:%u:%u"` scan used by `rcsdate2str`; succeeds iff
all six conversions match (`rc == 6`), and returns only year, month
and day (hours, minutes, seconds are read and discarded; the space in
the format skips any whitespace). -/
def scan6 (s : List Char) : Option (Nat × Nat × Nat) :=
  match parse_u s with
  | none => none
  | some (y, s) =>
    match parse_lit '/' s with
    | none => none
    | some s =>
      match parse_u s with
      | none => none
      | some (m, s) =>
        match parse_lit '/' s with
        | none => none
        | some s =>
          match parse_u s with
          | none => none
          | some (d, s) =>
            match parse_u (skipWs s) with
            | none => none
            | some (_h, s) =>
              match parse_lit ':' s with
              | none => none
              | some s =>
                match parse_u s with
                | none => none
                | some (_mi, s) =>
                  match parse_lit ':' s with
                  | none => none
                  | some s =>
                    match parse_u s with
                    | none => none
                    | some (_sec, _) => some (y, m, d)

/-! ## snprintf model for the date buffers -/

/-- `%.2u`: decimal, zero-padded to a minimum of two digits. -/
def fmt_u2 (n : Nat) : String :=
  if n < 10 then "0" ++ toString n else toString n

/-- `snprintf(buf, sizeof(buf), "%u-%.2u-%.2u", y, m, d)` with
`char buf[32]`: the formatted string truncated to 31 characters. -/
def date_buf (y m d : Nat) : String :=
  String.mk ((toString y ++ "-" ++ fmt_u2 m ++ "-" ++ fmt_u2 d).data.take 31)

/-! ## The date normalizers (library.c `date2str`, `rcsdate2str`) -/

/-- `date2str`: try `"%u/%u/%u"`, then `"%u-%u-%u"`; on failure of
both, warn and return NULL (modelled `none`); on success format
`"%u-%.2u-%.2u"`. -/
def date2str (v : String) : Option String :=
  match scan3 '/' v.data with
  | some (y, m, d) => some (date_buf y m d)
  | none =>
    match scan3 '-' v.data with
    | some (y, m, d) => some (date_buf y m d)
    | none => none

/-- `rcsdate2str`: reject strings shorter than 7 characters, skip the
first 7 characters unconditionally (`v += 7`), scan
`"%u/%u/%u %u:%u:%u"`, and format year-month-day only. -/
def rcsdate2str (v : String) : Option String :=
  if v.data.length < 7 then none
  else
    match scan6 (v.data.drop 7) with
    | some (y, m, d) => some (date_buf y m d)
    | none => none

/-! ## Output-specific escapers -/

/-- The per-character append loops of library.c (`hbuf_putc` /
`HBUF_PUTSL` inside a `for` over the characters of `v`): concatenate
the expansion of each character in order. -/
def appendMap (f : Char → String) : List Char → String
  | [] => ""
  | c :: cs => f c ++ appendMap f cs

/-- One character of the inline HTML-title escape loop in
`lowdown_standalone_open` (library.c lines 246-254): `<` and `>` are
escaped, each whitespace character becomes one space, everything else
(including `&` and `"`) is copied verbatim. -/
def html_escape_char (c : Char) : String :=
  if c = '<' then "&lt;"
  else if c = '>' then "&gt;"
  else if c_isspace c then " "
  else String.singleton c

/-- The inline HTML-title escaping of `lowdown_standalone_open`:
skip leading whitespace, then run the per-character loop. -/
def html_title_escape (v : String) : String :=
  appendMap html_escape_char (skipWs v.data)

/-- One character of the `serialise_roff` loop: backslash becomes
`\e`; a double quote becomes `\(dq` only in non-block context; each
whitespace character becomes one space; everything else is copied. -/
def roff_char (block : Bool) (c : Char) : String :=
  if c = '\\' then "\\e"
  else if block = false ∧ c = '"' then "\\(dq"
  else if c_isspace c then " "
  else String.singleton c

/-- `serialise_roff(op, v, block)`: skip leading whitespace; in block
context a leading `.` is preceded by the zero-width escape `\&`; then
the per-character loop; block context appends a final newline. -/
def serialise_roff (v : String) (block : Bool) : String :=
  let s := skipWs v.data
  (if block = true ∧ s.head? = some '.' then "\\&" else "")
    ++ appendMap (roff_char block) s
    ++ (if block then "\n" else "")

/-! ## Configuration, renderer and document construction -/

/-- `enum lowdown_type`: the three output types. -/
inductive lowdown_type
  | html
  | nroff
  | man
deriving DecidableEq

/-- The output-flag bitset `oflags`; the only bit this file reads is
`LOWDOWN_SMARTY` (typographic substitution). -/
structure OFlags where
  smarty : Bool
deriving DecidableEq

/-- `struct lowdown_opts` as read by library.c: output type, output
flags, and the (here opaque) feature-flag bitset `feat`.  A NULL
`opts` pointer is modelled as `none` at each use site. -/
structure lowdown_opts where
  type : lowdown_type
  oflags : OFlags
  feat : Nat
deriving DecidableEq

/-- A metadata entry `struct lowdown_meta`: key/value strings. -/
structure lowdown_meta where
  key : String
  value : String
deriving DecidableEq

/-- The renderer handle built at library.c lines 65-69: HTML when
`opts` is NULL or the type is HTML (with flags 0 when NULL), otherwise
the nroff renderer with a MAN discriminator. -/
inductive hrend
  | html (oflags : OFlags)
  | nroff (oflags : OFlags) (man : Bool)
deriving DecidableEq

/-- `hrend_html_new` / `hrend_nroff_new` selection from `opts`. -/
def mk_renderer : Option lowdown_opts → hrend
  | none => .html ⟨false⟩
  | some o =>
    if o.type = .html then .html o.oflags
    else .nroff o.oflags (o.type = .man)

/-- The non-renderer arguments of `hdoc_new`: feature flags (0 when
`opts` is NULL), `DEF_MAX_NESTING = 16`, and the roff-normalization
flag, true exactly when `opts` is present and its type is not HTML. -/
structure hdoc_args where
  feat : Nat
  maxNesting : Nat
  roffNormalize : Bool
deriving DecidableEq

/-- The `hdoc_new` argument computation at library.c lines 71-75. -/
def mk_hdoc_args (opts : Option lowdown_opts) : hdoc_args :=
  { feat := match opts with | none => 0 | some o => o.feat
    maxNesting := 16
    roffNormalize := match opts with
      | none => false
      | some o => o.type ≠ lowdown_type.html }

/-! ## The pipeline orchestrator (`lowdown_buf`, `lowdown_file`) -/

/-- `lowdown_buf`: build the renderer and document from `opts`, run
the external parser/renderer (`hdoc_render`, a collaborator supplied
as a function from renderer, document arguments and input to body and
metadata), then, iff `opts` is present and its SMARTY bit is set, run
the matching smartypants pass (`hsmrt_html`/`hsmrt_nroff`) over the
body and return its output; otherwise return the body itself.  The
metadata sequence is returned in both cases. -/
def lowdown_buf
    (hdoc_render : hrend → hdoc_args → String → String × List lowdown_meta)
    (hsmrt_html hsmrt_nroff : String → String)
    (opts : Option lowdown_opts) (data : String) :
    String × List lowdown_meta :=
  let rendered := hdoc_render (mk_renderer opts) (mk_hdoc_args opts) data
  let ob := rendered.1
  match opts with
  | some o =>
    if o.oflags.smarty then
      ((match o.type with
        | .html => hsmrt_html ob
        | _ => hsmrt_nroff ob), rendered.2)
    else (ob, rendered.2)
  | none => (ob, rendered.2)

/-- `lowdown_file`: drain the input stream into a buffer and delegate
to `lowdown_buf`.  The stream is modelled by its drained content, or
`none` when `hbuf_putf` reports a read error; in the error case the
function frees the partial buffer and returns 0 with no output
(modelled `none`). -/
def lowdown_file
    (hdoc_render : hrend → hdoc_args → String → String × List lowdown_meta)
    (hsmrt_html hsmrt_nroff : String → String)
    (opts : Option lowdown_opts) (fin : Option String) :
    Option (String × List lowdown_meta) :=
  match fin with
  | none => none
  | some ib => some (lowdown_buf hdoc_render hsmrt_html hsmrt_nroff opts ib)

/-! ## The error-string table -/

/-- The fixed table `errs[LOWDOWN_ERR__MAX]` of library.c. -/
def errs : List String :=
  ["space before link (CommonMark violation)",
   "bad character in metadata key (MultiMarkdown violation)"]

/-- `lowdown_errstr(err)`: `return errs[err]` with no bounds check.
The error code is modelled as the underlying integer of the C enum;
an index outside the table is an out-of-bounds array read, i.e. no
defined result, modelled as `none`. -/
def lowdown_errstr (err : Nat) : Option String :=
  errs.get? err

/-! ## The standalone document wrapper -/

/-- The metadata scan step of `lowdown_standalone_open` (library.c
lines 215-223), acting on the working triple
(title, author, date): `title` and `author` take the raw value;
`rcsdate` and `date` overwrite the date slot with the possibly-failed
result of the matching normalizer; other keys leave the triple
unchanged. -/
def scan_step (acc : String × Option String × Option String)
    (e : lowdown_meta) : String × Option String × Option String :=
  if e.key == "title" then (e.value, acc.2.1, acc.2.2)
  else if e.key == "author" then (acc.1, some e.value, acc.2.2)
  else if e.key == "rcsdate" then (acc.1, acc.2.1, rcsdate2str e.value)
  else if e.key == "date" then (acc.1, acc.2.1, date2str e.value)
  else acc

/-- The single linear metadata scan of `lowdown_standalone_open`,
starting from title `"Untitled article"`, no author, no date. -/
def scan_meta (ms : List lowdown_meta) :
    String × Option String × Option String :=
  ms.foldl scan_step ("Untitled article", none, none)

/-- A broken-down calendar date, standing in for the `struct tm`
obtained from `localtime(time(NULL))`. -/
structure Tm where
  year : Nat
  month : Nat
  day : Nat
deriving DecidableEq

/-- `strftime` with format `"%F"`, i.e. `"%Y-%m-%d"`: year unpadded
(calendar years have four digits), month and day zero-padded to two. -/
def strftime_F (t : Tm) : String :=
  toString t.year ++ "-" ++ fmt_u2 t.month ++ "-" ++ fmt_u2 t.day

/-- The date fallback of `lowdown_standalone_open` (lines 227-232):
if the scanned date slot is NULL, use the current local date. -/
def resolve_date (ms : List lowdown_meta) (now : Tm) : String :=
  match (scan_meta ms).2.2 with
  | none => strftime_F now
  | some s => s

/-- The fixed HTML document shell emitted in the HTML branch of
`lowdown_standalone_open`, around the escaped title. -/
def html_preamble (title : String) : String :=
  "<!DOCTYPE html>\n<html>\n<head>\n<meta charset=\"utf-8\">\n"
    ++ "<meta name=\"viewport\" content=\"width=device-width,initial-scale=1\">\n"
    ++ "<title>" ++ html_title_escape title
    ++ "</title>\n</head>\n<body>\n"

/-- `lowdown_standalone_open(opts, m, msz, res, rsz)`: scan the
metadata, resolve the date (with the current local date `now` as
fallback), then emit the type-specific preamble.  The function
dereferences `opts` with no NULL check (`switch (opts->type)`), so a
NULL configuration has no defined result: modelled `none`. -/
def lowdown_standalone_open (opts : Option lowdown_opts)
    (ms : List lowdown_meta) (now : Tm) : Option String :=
  match opts with
  | none => none
  | some o =>
    let scanned := scan_meta ms
    let title := scanned.1
    let author := scanned.2.1
    let date := resolve_date ms now
    some (match o.type with
      | .html => html_preamble title
      | .nroff =>
        ".DA " ++ date ++ "\n.TL\n" ++ serialise_roff title true
          ++ (match author with
              | none => ""
              | some a => ".AU\n" ++ serialise_roff a true)
      | .man =>
        ".TH \"" ++ serialise_roff title false ++ "\" 7 " ++ date ++ "\n")

/-- `lowdown_standalone_close(opts, res, rsz)`: HTML emits the closing
tags, every other type emits nothing.  Like `open`, it dereferences
`opts` with no NULL check, so a NULL configuration is `none`. -/
def lowdown_standalone_close (opts : Option lowdown_opts) : Option String :=
  match opts with
  | none => none
  | some o =>
    some (match o.type with
      | .html => "</body>\n</html>\n"
      | _ => "")

/-! ## Definitions taken from the specification text

These follow the spec's words, for comparison with the code-derived
definitions above. -/

/-- The HTML-title escaping as the spec states it: after skipping
leading whitespace, `<` and `>` are escaped and any whitespace RUN is
replaced by a single space (the flag tracks whether the previous
emitted piece came from a whitespace run). -/
def htmlTitleCollapseGo : Bool → List Char → String
  | _, [] => ""
  | prevWs, c :: cs =>
    if c_isspace c then
      (if prevWs then "" else " ") ++ htmlTitleCollapseGo true cs
    else
      (if c = '<' then "&lt;"
       else if c = '>' then "&gt;"
       else String.singleton c) ++ htmlTitleCollapseGo false cs

/-- Spec-stated HTML-title escaping (whitespace runs collapsed). -/
def htmlTitleEscape_claim (v : String) : String :=
  htmlTitleCollapseGo false (skipWs v.data)

/-- The HTML-title escaping as amended: after skipping leading
whitespace, each character is mapped independently — `<` to `&lt;`,
`>` to `&gt;`, each whitespace character to one space (runs are NOT
collapsed), everything else (including `&` and `"`) verbatim. -/
def htmlTitleEscape_amended (v : String) : String :=
  String.join ((skipWs v.data).map (fun c =>
    if c = '<' then "&lt;"
    else if c = '>' then "&gt;"
    else if c_isspace c then " "
    else String.singleton c))

/-- Roff escaping as the spec states it: skip leading whitespace; in
block context a leading `.` gets the zero-width escape; per character,
backslash to `\e`, double quote (inline only) to `\(dq`, whitespace to
a space, else verbatim; block context appends a newline. -/
def escapeRoff_claim (v : String) (isBlock : Bool) : String :=
  let rem := skipWs v.data
  (if isBlock = true ∧ rem.head? = some '.' then "\\&" else "")
    ++ String.join (rem.map (fun c =>
        if c = '\\' then "\\e"
        else if isBlock = false ∧ c = '"' then "\\(dq"
        else if c_isspace c then " "
        else String.singleton c))
    ++ (if isBlock then "\n" else "")

/-! ## Concrete collaborator instances

Sample instantiations of the external document parser/renderer and
smartypants passes, used to exercise the orchestrator theorems on
closed inputs. -/

/-- A sample parser/renderer collaborator: body is the input plus a
marker, metadata is one fixed entry. -/
def sample_render (_ : hrend) (_ : hdoc_args) (s : String) :
    String × List lowdown_meta :=
  (s ++ "!", [⟨"k", "v"⟩])

/-- A sample HTML smartypants pass. -/
def sample_smt_html (s : String) : String := "H:" ++ s

/-- A sample roff smartypants pass. -/
def sample_smt_nroff (s : String) : String := "N:" ++ s

/-! # Theorems -/

theorem join_cons (s : String) (l : List String) :
    String.join (s :: l) = s ++ String.join l := by
  apply String.ext
  simp

theorem appendMap_eq_join (f : Char → String) (l : List Char) :
    appendMap f l = String.join (l.map f) := by
  induction l with
  | nil => apply String.ext; simp [appendMap]
  | cons c cs ih => simp [appendMap, join_cons, ih]

/-- C7: `serialise_roff` skips leading whitespace, prefixes a leading
`.` with the zero-width escape `\&` in block context, then maps
backslash to `\e`, a double quote (inline context only) to `\(dq`,
each whitespace character to a space and all other characters
verbatim, and appends a trailing newline in block context; on
`".foo\bar"` in block context the output starts with the zero-width
escape before the dot, contains the escaped backslash, and ends with
a newline. -/
theorem c7_roff_escaping :
    (∀ v b, serialise_roff v b = escapeRoff_claim v b) ∧
    serialise_roff ".foo\\bar" true = "\\&.foo\\ebar\n" := by
  constructor
  · intro v b
    unfold serialise_roff escapeRoff_claim
    simp only [appendMap_eq_join]
    rfl
  · decide

/-- C3 counterexample: the HTML-title escaping does not collapse a
whitespace run to a single space; each whitespace character becomes
one space, so on `"a\t\tb"` the code yields `"a  b"` while the claim
as stated yields `"a b"`. -/
theorem c3_run_collapse_counterexample :
    html_title_escape "a\t\tb" = "a  b" ∧
    htmlTitleEscape_claim "a\t\tb" = "a b" ∧
    html_title_escape "a\t\tb" ≠ htmlTitleEscape_claim "a\t\tb" :=
  ⟨by decide, by decide, by decide⟩

/-- C3 as amended: the HTML-title escaping skips leading whitespace,
then maps each character independently — `<` to `&lt;`, `>` to `&gt;`,
each whitespace character to one space (runs are not collapsed), and
every other character (including `&` and `"`) verbatim; the claim's
concrete examples hold as stated. -/
theorem c3_html_title_escape_amended :
    (∀ v, html_title_escape v = htmlTitleEscape_amended v) ∧
    html_title_escape "  <Hi> " = "&lt;Hi&gt; " ∧
    html_title_escape "He said \"hi\" & left" = "He said \"hi\" & left" := by
  refine ⟨fun v => ?_, by decide, by decide⟩
  unfold html_title_escape htmlTitleEscape_amended
  rw [appendMap_eq_join]
  rfl

/-- C2 counterexample: with configuration absent (a NULL `opts`
pointer), `lowdown_standalone_open` and `lowdown_standalone_close`
dereference the configuration (`switch (opts->type)`) without a NULL
check, so neither produces the HTML preamble/postamble — there is no
defined result at all. -/
theorem c2_null_config_counterexample :
    lowdown_standalone_open none [] ⟨2026, 10, 11⟩ = none ∧
    lowdown_standalone_close none = none ∧
    lowdown_standalone_open none [] ⟨2026, 10, 11⟩
      ≠ some (html_preamble "Untitled article") ∧
    lowdown_standalone_close none ≠ some "</body>\n</html>\n" :=
  ⟨rfl, rfl, fun h => Option.noConfusion h, fun h => Option.noConfusion h⟩

/-- C2 as amended: `lowdown_buf` accepts an absent configuration as
HTML output with all-default flags and still produces a defined
result, and `open`/`close` produce the HTML preamble and postamble for
every metadata sequence when given a present default (HTML, no flags)
configuration; but `open` and `close` themselves require a present
configuration — with configuration absent they dereference it and
have no defined result. -/
theorem c2_config_defaults :
    ∀ (ms : List lowdown_meta) (now : Tm),
      lowdown_standalone_open (some ⟨.html, ⟨false⟩, 0⟩) ms now
        = some (html_preamble (scan_meta ms).1) ∧
      lowdown_standalone_close (some ⟨.html, ⟨false⟩, 0⟩)
        = some "</body>\n</html>\n" ∧
      (∀ (rend : hrend → hdoc_args → String → String × List lowdown_meta)
          (hsH hsN : String → String) (data : String),
        lowdown_buf rend hsH hsN none data
          = ((rend (hrend.html ⟨false⟩) ⟨0, 16, false⟩ data).1,
             (rend (hrend.html ⟨false⟩) ⟨0, 16, false⟩ data).2)) ∧
      lowdown_standalone_open none ms now = none ∧
      lowdown_standalone_close none = none := by
  intro ms now
  exact ⟨rfl, rfl, fun rend hsH hsN data => rfl, rfl, rfl⟩

/-- C4: `lowdown_buf` returns the parser's metadata sequence
unconditionally; its byte output is the rendered body exactly when
the configuration is absent or the SMARTY flag is unset, and the
matching smartypants variant (HTML for HTML output, roff otherwise)
applied to that body when the flag is set — the raw body is then not
returned. -/
theorem c4_smarty_selection :
    ∀ (rend : hrend → hdoc_args → String → String × List lowdown_meta)
      (hsH hsN : String → String) (opts : Option lowdown_opts) (data : String),
      (lowdown_buf rend hsH hsN opts data).2
        = (rend (mk_renderer opts) (mk_hdoc_args opts) data).2 ∧
      (opts = none →
        (lowdown_buf rend hsH hsN opts data).1
          = (rend (mk_renderer opts) (mk_hdoc_args opts) data).1) ∧
      (∀ o, opts = some o → o.oflags.smarty = false →
        (lowdown_buf rend hsH hsN opts data).1
          = (rend (mk_renderer opts) (mk_hdoc_args opts) data).1) ∧
      (∀ o, opts = some o → o.oflags.smarty = true →
        (lowdown_buf rend hsH hsN opts data).1
          = (match o.type with
             | .html => hsH (rend (mk_renderer opts) (mk_hdoc_args opts) data).1
             | _ => hsN (rend (mk_renderer opts) (mk_hdoc_args opts) data).1)) := by
  intro rend hsH hsN opts data
  refine ⟨?_, ?_, ?_, ?_⟩
  · cases opts with
    | none => rfl
    | some o =>
      by_cases h : o.oflags.smarty = true
      · simp [lowdown_buf, h]
      · simp only [Bool.not_eq_true] at h
        simp [lowdown_buf, h]
  · rintro rfl; rfl
  · rintro o rfl h
    simp [lowdown_buf, h]
  · rintro o rfl h
    simp [lowdown_buf, h]

/-- C4 witness: with a concrete HTML configuration whose SMARTY flag
is set, the output of `lowdown_buf` on sample collaborators is the
HTML smartypants pass applied to the rendered body. -/
theorem c4_smarty_selection_witness :
    (lowdown_buf sample_render sample_smt_html sample_smt_nroff
        (some ⟨.html, ⟨true⟩, 0⟩) "x").1 = "H:x!" := by
  have h := (c4_smarty_selection sample_render sample_smt_html sample_smt_nroff
      (some ⟨.html, ⟨true⟩, 0⟩) "x").2.2.2 ⟨.html, ⟨true⟩, 0⟩ rfl rfl
  rw [h]
  rfl

/-- C8: `lowdown_file` fails exactly on a read error while draining
the input stream — it then produces no output and no metadata — and
otherwise delegates the drained bytes to `lowdown_buf`, whose result
it returns with success. -/
theorem c8_file_drain :
    ∀ (rend : hrend → hdoc_args → String → String × List lowdown_meta)
      (hsH hsN : String → String) (opts : Option lowdown_opts),
      lowdown_file rend hsH hsN opts none = none ∧
      ∀ s : String, lowdown_file rend hsH hsN opts (some s)
        = some (lowdown_buf rend hsH hsN opts s) := by
  intro rend hsH hsN opts
  exact ⟨rfl, fun s => rfl⟩

/-- C9 counterexample: `lowdown_errstr` performs no bounds check; an
out-of-range error code reads outside the two-entry table and has no
defined result. -/
theorem c9_out_of_range_counterexample :
    lowdown_errstr 2 = none :=
  rfl

/-- C9 as amended: for each of the two enumerated error codes
`lowdown_errstr` returns the corresponding human-readable string from
the fixed table; for every out-of-range code the unchecked table read
has no defined result (the bounds check is a hardening requirement of
the spec for reimplementations, not present in this code). -/
theorem c9_errstr_lookup :
    lowdown_errstr 0 = some "space before link (CommonMark violation)" ∧
    lowdown_errstr 1 = some "bad character in metadata key (MultiMarkdown violation)" ∧
    ∀ n, 2 ≤ n → lowdown_errstr n = none := by
  refine ⟨rfl, rfl, fun n h => ?_⟩
  unfold lowdown_errstr
  exact List.get?_eq_none.mpr (by simpa [errs] using h)

/-- C9 witness: the out-of-range code 5 has no defined result. -/
theorem c9_errstr_lookup_witness :
    lowdown_errstr 5 = none :=
  c9_errstr_lookup.2.2 5 (by decide)

/-- C5: `date2str` tries the slash grammar first, falls back to the
dash grammar, fails (returns NULL) when neither matches three
unsigned integers, and on success formats year unpadded with
month/day zero-padded to two digits. -/
theorem c5_date_normalization :
    (∀ (v : String) (y m d : Nat), scan3 '/' v.data = some (y, m, d) →
        date2str v = some (date_buf y m d)) ∧
    (∀ (v : String) (y m d : Nat), scan3 '/' v.data = none →
        scan3 '-' v.data = some (y, m, d) →
        date2str v = some (date_buf y m d)) ∧
    (∀ v : String, scan3 '/' v.data = none → scan3 '-' v.data = none →
        date2str v = none) ∧
    date2str "2021/3/5" = some "2021-03-05" ∧
    date2str "2021-3-5" = some "2021-03-05" ∧
    date2str "not-a-date" = none := by
  refine ⟨?_, ?_, ?_, by decide, by decide, by decide⟩
  · intro v y m d h
    unfold date2str
    rw [h]
  · intro v y m d h1 h2
    unfold date2str
    rw [h1, h2]
  · intro v h1 h2
    unfold date2str
    rw [h1, h2]

/-- C5 witness: the slash grammar matches `"2021/3/5"` and the result
is the canonical date with zero-padded month and day. -/
theorem c5_date_normalization_witness :
    date2str "2021/3/5" = some (date_buf 2021 3 5) :=
  c5_date_normalization.1 "2021/3/5" 2021 3 5 (by decide)

/-- C6: `rcsdate2str` fails on strings shorter than 7 characters,
unconditionally skips the first 7 characters (whatever they are),
requires all six integers of `y/m/d h:m:s` to match, and keeps only
the date part, discarding the time. -/
theorem c6_rcsdate_normalization :
    (∀ v : String, v.data.length < 7 → rcsdate2str v = none) ∧
    (∀ (v : String) (y m d : Nat), 7 ≤ v.data.length →
        scan6 (v.data.drop 7) = some (y, m, d) →
        rcsdate2str v = some (date_buf y m d)) ∧
    (∀ v : String, 7 ≤ v.data.length → scan6 (v.data.drop 7) = none →
        rcsdate2str v = none) ∧
    rcsdate2str "$Date: 2021/03/05 10:11:12 $" = some "2021-03-05" ∧
    rcsdate2str "ABCDEFG2021/03/05 23:59:58 etc" = some "2021-03-05" ∧
    rcsdate2str "$Date:" = none := by
  refine ⟨?_, ?_, ?_, by decide, by decide, by decide⟩
  · intro v h
    unfold rcsdate2str
    rw [if_pos h]
  · intro v y m d h1 h2
    unfold rcsdate2str
    rw [if_neg (by omega), h2]
  · intro v h1 h2
    unfold rcsdate2str
    rw [if_neg (by omega), h2]

/-- C6 witness: a string shorter than 7 characters yields no value. -/
theorem c6_rcsdate_normalization_witness :
    rcsdate2str "abc" = none :=
  c6_rcsdate_normalization.1 "abc" (by decide)

theorem c_isspace_of_isdigit (c : Char) (h : c_isdigit c = true) :
    c_isspace c = false := by
  simp only [c_isdigit, Bool.and_eq_true, decide_eq_true_eq] at h
  simp only [c_isspace, Bool.or_eq_false_iff, decide_eq_false_iff_not]
  omega

theorem ne_minus_of_isdigit (c : Char) (h : c_isdigit c = true) : ¬(c = '-') := by
  intro he
  rw [he] at h
  exact absurd h (by decide)

theorem ne_plus_of_isdigit (c : Char) (h : c_isdigit c = true) : ¬(c = '+') := by
  intro he
  rw [he] at h
  exact absurd h (by decide)

theorem skipWs_not_space (c : Char) (cs : List Char) (h : c_isspace c = false) :
    skipWs (c :: cs) = c :: cs := by
  simp [skipWs, h]

theorem skipWs_cons_space (cs : List Char) : skipWs (' ' :: cs) = skipWs cs := by
  conv_lhs => rw [skipWs]
  rw [if_pos (by decide)]

theorem head_not_digit (x : Char) (hx : c_isdigit x = false) (xs : List Char) :
    ∀ c, (x :: xs).head? = some c → c_isdigit c = false := by
  intro c hc
  simp only [List.head?_cons, Option.some.injEq] at hc
  rw [← hc]
  exact hx

theorem spanDigits_append (ds r : List Char)
    (hds : ∀ c ∈ ds, c_isdigit c = true)
    (hr : ∀ c, r.head? = some c → c_isdigit c = false) :
    spanDigits (ds ++ r) = (ds, r) := by
  induction ds with
  | nil =>
    cases r with
    | nil => rfl
    | cons c cs => simp [spanDigits, hr c rfl]
  | cons c cs ih =>
    have hc : c_isdigit c = true := hds c (List.mem_cons_self c cs)
    have ih' := ih (fun x hx => hds x (List.mem_cons_of_mem c hx))
    simp [spanDigits, hc, ih']

theorem parse_u_digits (d : Char) (ds r : List Char)
    (hd : ∀ c ∈ d :: ds, c_isdigit c = true)
    (hr : ∀ c, r.head? = some c → c_isdigit c = false) :
    parse_u ((d :: ds) ++ r) = some (uVal (d :: ds), r) := by
  have hd0 : c_isdigit d = true := hd d (List.mem_cons_self d ds)
  have hspan : spanDigits ((d :: ds) ++ r) = (d :: ds, r) :=
    spanDigits_append (d :: ds) r hd hr
  unfold parse_u
  rw [List.cons_append, skipWs_not_space d (ds ++ r) (c_isspace_of_isdigit d hd0)]
  simp only [parse_u_core]
  rw [if_neg (ne_minus_of_isdigit d hd0), if_neg (ne_plus_of_isdigit d hd0)]
  rw [List.cons_append] at hspan
  rw [hspan]

theorem parse_lit_cons (c : Char) (cs : List Char) :
    parse_lit c (c :: cs) = some cs := by
  simp [parse_lit]

theorem scan3_digits (sep : Char) (u1 u2 u3 rest : List Char)
    (hsep : c_isdigit sep = false)
    (h1 : u1 ≠ []) (h2 : u2 ≠ []) (h3 : u3 ≠ [])
    (hd1 : ∀ c ∈ u1, c_isdigit c = true)
    (hd2 : ∀ c ∈ u2, c_isdigit c = true)
    (hd3 : ∀ c ∈ u3, c_isdigit c = true)
    (hrest : ∀ c, rest.head? = some c → c_isdigit c = false) :
    scan3 sep (u1 ++ (sep :: (u2 ++ (sep :: (u3 ++ rest)))))
      = some (uVal u1, uVal u2, uVal u3) := by
  obtain ⟨a1, t1, rfl⟩ := List.exists_cons_of_ne_nil h1
  obtain ⟨a2, t2, rfl⟩ := List.exists_cons_of_ne_nil h2
  obtain ⟨a3, t3, rfl⟩ := List.exists_cons_of_ne_nil h3
  have p1 := parse_u_digits a1 t1 (sep :: ((a2 :: t2) ++ (sep :: ((a3 :: t3) ++ rest))))
      hd1 (head_not_digit sep hsep _)
  have p2 := parse_u_digits a2 t2 (sep :: ((a3 :: t3) ++ rest))
      hd2 (head_not_digit sep hsep _)
  have p3 := parse_u_digits a3 t3 rest hd3 hrest
  unfold scan3
  rw [p1]
  simp only [parse_lit_cons, p2, p3]

theorem scan6_digits (u1 u2 u3 u4 u5 u6 rest : List Char)
    (h1 : u1 ≠ []) (h2 : u2 ≠ []) (h3 : u3 ≠ [])
    (h4 : u4 ≠ []) (h5 : u5 ≠ []) (h6 : u6 ≠ [])
    (hd1 : ∀ c ∈ u1, c_isdigit c = true)
    (hd2 : ∀ c ∈ u2, c_isdigit c = true)
    (hd3 : ∀ c ∈ u3, c_isdigit c = true)
    (hd4 : ∀ c ∈ u4, c_isdigit c = true)
    (hd5 : ∀ c ∈ u5, c_isdigit c = true)
    (hd6 : ∀ c ∈ u6, c_isdigit c = true)
    (hrest : ∀ c, rest.head? = some c → c_isdigit c = false) :
    scan6 (u1 ++ ('/' :: (u2 ++ ('/' :: (u3 ++ (' ' :: (u4
        ++ (':' :: (u5 ++ (':' :: (u6 ++ rest)))))))))))
      = some (uVal u1, uVal u2, uVal u3) := by
  obtain ⟨a1, t1, rfl⟩ := List.exists_cons_of_ne_nil h1
  obtain ⟨a2, t2, rfl⟩ := List.exists_cons_of_ne_nil h2
  obtain ⟨a3, t3, rfl⟩ := List.exists_cons_of_ne_nil h3
  obtain ⟨a4, t4, rfl⟩ := List.exists_cons_of_ne_nil h4
  obtain ⟨a5, t5, rfl⟩ := List.exists_cons_of_ne_nil h5
  obtain ⟨a6, t6, rfl⟩ := List.exists_cons_of_ne_nil h6
  have p1 := parse_u_digits a1 t1
      ('/' :: ((a2 :: t2) ++ ('/' :: ((a3 :: t3) ++ (' ' :: ((a4 :: t4)
        ++ (':' :: ((a5 :: t5) ++ (':' :: ((a6 :: t6) ++ rest))))))))))
      hd1 (head_not_digit '/' (by decide) _)
  have p2 := parse_u_digits a2 t2
      ('/' :: ((a3 :: t3) ++ (' ' :: ((a4 :: t4)
        ++ (':' :: ((a5 :: t5) ++ (':' :: ((a6 :: t6) ++ rest))))))))
      hd2 (head_not_digit '/' (by decide) _)
  have p3 := parse_u_digits a3 t3
      (' ' :: ((a4 :: t4) ++ (':' :: ((a5 :: t5) ++ (':' :: ((a6 :: t6) ++ rest))))))
      hd3 (head_not_digit ' ' (by decide) _)
  have p4 := parse_u_digits a4 t4
      (':' :: ((a5 :: t5) ++ (':' :: ((a6 :: t6) ++ rest))))
      hd4 (head_not_digit ':' (by decide) _)
  have p5 := parse_u_digits a5 t5
      (':' :: ((a6 :: t6) ++ rest))
      hd5 (head_not_digit ':' (by decide) _)
  have p6 := parse_u_digits a6 t6 rest hd6 hrest
  have hd40 : c_isdigit a4 = true := hd4 a4 (List.mem_cons_self a4 t4)
  have hskip : skipWs (' ' :: ((a4 :: t4)
      ++ (':' :: ((a5 :: t5) ++ (':' :: ((a6 :: t6) ++ rest))))))
      = (a4 :: t4) ++ (':' :: ((a5 :: t5) ++ (':' :: ((a6 :: t6) ++ rest)))) := by
    rw [skipWs_cons_space, List.cons_append,
      skipWs_not_space a4 _ (c_isspace_of_isdigit a4 hd40), ← List.cons_append]
  unfold scan6
  rw [p1]
  simp only [parse_lit_cons, p2, p3, hskip, p4, p5, p6]

theorem parse_lit_ne (c x : Char) (xs : List Char) (h : ¬(x = c)) :
    parse_lit c (x :: xs) = none := by
  simp [parse_lit, h]

/-- C10: date normalization accepts on a prefix-match basis with no
semantic validation: any string beginning with the three-integer
pattern (slash grammar, or dash grammar when the slash grammar fails
at the first separator) is accepted no matter what trailing text
follows the last matched integer, and similarly for `rcsdate2str`
with an arbitrary 7-character prefix and the six-integer pattern;
out-of-range month/day values are formatted as-is. -/
theorem c10_prefix_acceptance :
    (∀ (v : String) (u1 u2 u3 rest : List Char),
      v.data = u1 ++ ('/' :: (u2 ++ ('/' :: (u3 ++ rest)))) →
      u1 ≠ [] → u2 ≠ [] → u3 ≠ [] →
      (∀ c ∈ u1, c_isdigit c = true) →
      (∀ c ∈ u2, c_isdigit c = true) →
      (∀ c ∈ u3, c_isdigit c = true) →
      (∀ c, rest.head? = some c → c_isdigit c = false) →
      date2str v = some (date_buf (uVal u1) (uVal u2) (uVal u3))) ∧
    (∀ (v : String) (u1 u2 u3 rest : List Char),
      v.data = u1 ++ ('-' :: (u2 ++ ('-' :: (u3 ++ rest)))) →
      u1 ≠ [] → u2 ≠ [] → u3 ≠ [] →
      (∀ c ∈ u1, c_isdigit c = true) →
      (∀ c ∈ u2, c_isdigit c = true) →
      (∀ c ∈ u3, c_isdigit c = true) →
      (∀ c, rest.head? = some c → c_isdigit c = false) →
      date2str v = some (date_buf (uVal u1) (uVal u2) (uVal u3))) ∧
    (∀ (v : String) (p u1 u2 u3 u4 u5 u6 rest : List Char),
      v.data = p ++ (u1 ++ ('/' :: (u2 ++ ('/' :: (u3 ++ (' ' :: (u4
        ++ (':' :: (u5 ++ (':' :: (u6 ++ rest))))))))))) →
      p.length = 7 →
      u1 ≠ [] → u2 ≠ [] → u3 ≠ [] → u4 ≠ [] → u5 ≠ [] → u6 ≠ [] →
      (∀ c ∈ u1, c_isdigit c = true) →
      (∀ c ∈ u2, c_isdigit c = true) →
      (∀ c ∈ u3, c_isdigit c = true) →
      (∀ c ∈ u4, c_isdigit c = true) →
      (∀ c ∈ u5, c_isdigit c = true) →
      (∀ c ∈ u6, c_isdigit c = true) →
      (∀ c, rest.head? = some c → c_isdigit c = false) →
      rcsdate2str v = some (date_buf (uVal u1) (uVal u2) (uVal u3))) ∧
    date2str "2021/3/5 trailing junk" = some "2021-03-05" ∧
    date2str "2021/99/99" = some "2021-99-99" ∧
    rcsdate2str "$Date: 2021/03/05 10:11:12 $ trailing junk" = some "2021-03-05" := by
  refine ⟨?_, ?_, ?_, by decide, by decide, by decide⟩
  · intro v u1 u2 u3 rest hv h1 h2 h3 hd1 hd2 hd3 hrest
    unfold date2str
    rw [hv, scan3_digits '/' u1 u2 u3 rest (by decide) h1 h2 h3 hd1 hd2 hd3 hrest]
  · intro v u1 u2 u3 rest hv h1 h2 h3 hd1 hd2 hd3 hrest
    obtain ⟨a1, t1, rfl⟩ := List.exists_cons_of_ne_nil h1
    have p1 := parse_u_digits a1 t1 ('-' :: (u2 ++ ('-' :: (u3 ++ rest))))
        hd1 (head_not_digit '-' (by decide) _)
    have hfail : scan3 '/' ((a1 :: t1) ++ ('-' :: (u2 ++ ('-' :: (u3 ++ rest)))))
        = none := by
      unfold scan3
      rw [p1]
      simp only [parse_lit_ne '/' '-' _ (by decide)]
    unfold date2str
    rw [hv, hfail,
      scan3_digits '-' (a1 :: t1) u2 u3 rest (by decide) h1 h2 h3 hd1 hd2 hd3 hrest]
  · intro v p u1 u2 u3 u4 u5 u6 rest hv hp h1 h2 h3 h4 h5 h6
      hd1 hd2 hd3 hd4 hd5 hd6 hrest
    unfold rcsdate2str
    rw [hv]
    rw [if_neg (by simp only [List.length_append, List.length_cons]; omega)]
    rw [show (p ++ (u1 ++ ('/' :: (u2 ++ ('/' :: (u3 ++ (' ' :: (u4
          ++ (':' :: (u5 ++ (':' :: (u6 ++ rest)))))))))))).drop 7
        = u1 ++ ('/' :: (u2 ++ ('/' :: (u3 ++ (' ' :: (u4
          ++ (':' :: (u5 ++ (':' :: (u6 ++ rest)))))))))) from by
      rw [← hp]
      exact List.drop_left p _]
    rw [scan6_digits u1 u2 u3 u4 u5 u6 rest h1 h2 h3 h4 h5 h6
      hd1 hd2 hd3 hd4 hd5 hd6 hrest]

/-- C10 witness: `"2021/99/99 x"` has the slash pattern as a prefix
with out-of-range month and day and trailing text; it is accepted and
formatted as-is. -/
theorem c10_prefix_acceptance_witness :
    date2str "2021/99/99 x"
      = some (date_buf (uVal ['2', '0', '2', '1']) (uVal ['9', '9'])
          (uVal ['9', '9'])) :=
  c10_prefix_acceptance.1 "2021/99/99 x" ['2', '0', '2', '1'] ['9', '9']
    ['9', '9'] [' ', 'x'] (by decide) (by decide) (by decide) (by decide)
    (by decide) (by decide) (by decide) (by decide)

theorem scan_meta_append (l : List lowdown_meta) (e : lowdown_meta) :
    scan_meta (l ++ [e]) = scan_step (scan_meta l) e := by
  simp [scan_meta, List.foldl_append]

/-- The single linear scan of the metadata implements
last-occurrence-wins for each of the three working slots: each slot
equals the value determined by the last matching entry (found here by
searching the reversed sequence), with the stated defaults. -/
theorem scan_meta_last_wins (ms : List lowdown_meta) :
    (scan_meta ms).1
      = ((ms.reverse.find? (fun e => e.key == "title")).map lowdown_meta.value).getD
          "Untitled article" ∧
    (scan_meta ms).2.1
      = (ms.reverse.find? (fun e => e.key == "author")).map lowdown_meta.value ∧
    (scan_meta ms).2.2
      = (ms.reverse.find? (fun e => e.key == "rcsdate" || e.key == "date")).bind
          (fun e => if e.key == "rcsdate" then rcsdate2str e.value
                    else date2str e.value) := by
  induction ms using List.reverseRecOn with
  | nil => exact ⟨rfl, rfl, rfl⟩
  | append_singleton l e ih =>
    obtain ⟨ih1, ih2, ih3⟩ := ih
    rw [scan_meta_append]
    cases ht : e.key == "title" with
    | true =>
      have he : e.key = "title" := by simpa using ht
      refine ⟨?_, ?_, ?_⟩ <;>
        simp [scan_step, he, ih1, ih2, ih3, List.find?_cons]
    | false =>
      cases ha : e.key == "author" with
      | true =>
        have he : e.key = "author" := by simpa using ha
        refine ⟨?_, ?_, ?_⟩ <;>
          simp [scan_step, he, ih1, ih2, ih3, List.find?_cons]
      | false =>
        cases hr : e.key == "rcsdate" with
        | true =>
          have he : e.key = "rcsdate" := by simpa using hr
          refine ⟨?_, ?_, ?_⟩ <;>
            simp [scan_step, he, ih1, ih2, ih3, List.find?_cons]
        | false =>
          cases hd : e.key == "date" with
          | true =>
            have he : e.key = "date" := by simpa using hd
            refine ⟨?_, ?_, ?_⟩ <;>
              simp [scan_step, he, ih1, ih2, ih3, List.find?_cons]
          | false =>
            refine ⟨?_, ?_, ?_⟩ <;>
              simp [scan_step, ht, ha, hr, hd, ih1, ih2, ih3, List.find?_cons]

/-- C1: the metadata scan of `lowdown_standalone_open` resolves each
slot by a single linear scan with unconditional overwrites, so the
last entry with key `rcsdate` or `date` alone determines the date
slot (through the possibly-failed matching normalizer), title and
author are last-occurrence-wins with defaults `"Untitled article"`
and none, and a date slot left unresolved is replaced by the current
local date formatted `YYYY-MM-DD`. -/
theorem c1_metadata_resolution :
    ∀ (ms : List lowdown_meta) (now : Tm),
      (scan_meta ms).1
        = ((ms.reverse.find? (fun e => e.key == "title")).map
            lowdown_meta.value).getD "Untitled article" ∧
      (scan_meta ms).2.1
        = (ms.reverse.find? (fun e => e.key == "author")).map lowdown_meta.value ∧
      (scan_meta ms).2.2
        = (ms.reverse.find? (fun e => e.key == "rcsdate" || e.key == "date")).bind
            (fun e => if e.key == "rcsdate" then rcsdate2str e.value
                      else date2str e.value) ∧
      ((scan_meta ms).2.2 = none → resolve_date ms now = strftime_F now) ∧
      (∀ s, (scan_meta ms).2.2 = some s → resolve_date ms now = s) := by
  intro ms now
  obtain ⟨h1, h2, h3⟩ := scan_meta_last_wins ms
  refine ⟨h1, h2, h3, ?_, ?_⟩
  · intro h
    unfold resolve_date
    rw [h]
  · intro s h
    unfold resolve_date
    rw [h]

/-- C1 witness: the spec's order-dependency example — with a `date`
entry followed by an `rcsdate` entry the later one wins, in the
reversed order the `date` entry wins, and with no date-bearing key
the current local date is substituted. -/
theorem c1_metadata_resolution_witness :
    resolve_date [⟨"date", "2020-01-01"⟩,
        ⟨"rcsdate", "$Date: 2021/02/02 00:00:00$"⟩] ⟨2026, 10, 11⟩
      = "2021-02-02" ∧
    resolve_date [⟨"rcsdate", "$Date: 2021/02/02 00:00:00$"⟩,
        ⟨"date", "2020-01-01"⟩] ⟨2026, 10, 11⟩
      = "2020-01-01" ∧
    resolve_date [⟨"other", "x"⟩] ⟨2026, 10, 11⟩
      = strftime_F ⟨2026, 10, 11⟩ :=
  ⟨(c1_metadata_resolution _ ⟨2026, 10, 11⟩).2.2.2.2 "2021-02-02" (by decide),
   (c1_metadata_resolution _ ⟨2026, 10, 11⟩).2.2.2.2 "2020-01-01" (by decide),
   (c1_metadata_resolution _ ⟨2026, 10, 11⟩).2.2.2.1 (by decide)⟩

end Lowdown
